import Mathlib

/-!
Verification of the content data model of the `modernapp` blog platform
(`models.py`, `app.py`).  Python strings are modelled as `List Char`;
optional / possibly-`None` values as `Option`.  Python's `re` module and
`str.lower` are Unicode-aware; the embedding models their character
classes exactly over the ASCII and Latin-1 ranges (code points at U+0100
and above are outside its scope), and theorems that depend on character
classes carry explicit range hypotheses.  All functions are written with
structural recursion so that the kernel can evaluate them on concrete
inputs.
-/

namespace ModernApp

/-- ASCII whitespace characters recognised by Python's `\s` class and by
`str.split()` / `str.strip()`: space, tab, newline, carriage return,
vertical tab, form feed. -/
def isPySpace (c : Char) : Bool :=
  c = ' ' || c = '\t' || c = '\n' || c = '\r' || c = '\x0b' || c = '\x0c'

/-- The code points of the Latin-1 Supplement block matched by Python's
Unicode-aware `\w`: the letters (`ª`, `µ`, `º`, `À`–`ÿ` except `×` and
`÷`) together with the numeric characters `¹ ² ³ ¼ ½ ¾`, which Python's
`str.isalnum` — and hence `\w` — also accepts. -/
def isLatin1Word (c : Char) : Bool :=
  c.toNat = 170 || c.toNat = 178 || c.toNat = 179 || c.toNat = 181 ||
    c.toNat = 185 || c.toNat = 186 || c.toNat = 188 || c.toNat = 189 ||
    c.toNat = 190 ||
    (192 ≤ c.toNat && c.toNat ≤ 255 && c.toNat ≠ 215 && c.toNat ≠ 247)

/-- Word characters of Python's regex class `\w` over the ASCII and
Latin-1 ranges: ASCII alphanumerics, the underscore, and the Latin-1 word
characters. -/
def isWordChar (c : Char) : Bool :=
  c.isAlphanum || c = '_' || isLatin1Word c

/-- Characters kept by the first substitution `re.sub(r'[^\w\s-]', '', s)`
in `generate_slug`: word characters, whitespace and the hyphen. -/
def keepChar (c : Char) : Bool :=
  isWordChar c || isPySpace c || c = '-'

/-- Characters matched by the second substitution `re.sub(r'[\s_-]+', '-', s)`
in `generate_slug`: whitespace, underscore and hyphen. -/
def isSepChar (c : Char) : Bool :=
  isPySpace c || c = '_' || c = '-'

/-- Characters allowed in a finished slug: `[a-z0-9-]`. -/
def isSlugChar (c : Char) : Bool :=
  (97 ≤ c.toNat && c.toNat ≤ 122) || (48 ≤ c.toNat && c.toNat ≤ 57) || c = '-'

/-- Python `str.lower()` over the ASCII and Latin-1 ranges: `A`–`Z` and
`À`–`Þ` (except `×`) move down by 32; everything else — `ß`, `µ` and the
already-lowercase letters included — is unchanged.  (`Char.toLower`
covers only the ASCII part.) -/
def pyLower (c : Char) : Char :=
  if (65 ≤ c.toNat && c.toNat ≤ 90) ||
      (192 ≤ c.toNat && c.toNat ≤ 222 && c.toNat ≠ 215) then
    Char.ofNat (c.toNat + 32)
  else c

/-- Python `str.strip()`: remove leading and trailing whitespace. -/
def pyStrip (s : List Char) : List Char :=
  ((s.dropWhile isPySpace).reverse.dropWhile isPySpace).reverse

/-- Python `str.strip('-')`: remove leading and trailing hyphens. -/
def stripHyphens (s : List Char) : List Char :=
  ((s.dropWhile (fun c => c = '-')).reverse.dropWhile (fun c => c = '-')).reverse

/-- One pass of `re.sub(r'[\s_-]+', '-', s)`: every maximal run of
separator characters becomes a single hyphen.  `prevSep` records whether
the previous character belonged to a separator run. -/
def collapseAux (prevSep : Bool) : List Char → List Char
  | [] => []
  | c :: cs =>
    if isSepChar c then
      if prevSep then collapseAux true cs else '-' :: collapseAux true cs
    else c :: collapseAux false cs

/-- `re.sub(r'[\s_-]+', '-', s)`. -/
def collapseRuns (s : List Char) : List Char :=
  collapseAux false s

/-- The common base-token computation of `BlogPost.generate_slug` and
`Category.generate_slug`:
`slug = re.sub(r'[^\w\s-]', '', text.lower())`;
`slug = re.sub(r'[\s_-]+', '-', slug)`; `return slug.strip('-')`.
`pyLower` is Python's case folding over the modelled character range. -/
def slugBase (text : List Char) : List Char :=
  stripHyphens (collapseRuns ((text.map pyLower).filter keepChar))

/-- Decimal digit to character. -/
def digitChar : Nat → Char
  | 0 => '0' | 1 => '1' | 2 => '2' | 3 => '3' | 4 => '4'
  | 5 => '5' | 6 => '6' | 7 => '7' | 8 => '8' | _ => '9'

/-- Decimal representation, fuelled so that the recursion is structural.
`fuel = n + 1` always suffices since `n / 10 < n` for `n ≥ 10`. -/
def natToCharsAux : Nat → Nat → List Char
  | _, 0 => []
  | n, fuel + 1 =>
    if n < 10 then [digitChar n]
    else natToCharsAux (n / 10) fuel ++ [digitChar (n % 10)]

/-- Python `str(n)` for a natural number, as produced by the f-string
`f"{base_slug}-{counter}"`. -/
def natToChars (n : Nat) : List Char :=
  natToCharsAux n (n + 1)

/-- The collision loop of `BlogPost.generate_slug`:
`while BlogPost.query.filter_by(slug=unique_slug).first(): unique_slug =
f"{base_slug}-{counter}"; counter += 1`.  The loop is fuelled; a fuel of
`existing.length + 1` is enough, because the candidates for distinct
counters are distinct strings while `existing` is finite, so the `fuel = 0`
fallback is never reached from `uniqueSlug`. -/
def findFree (base : List Char) (existing : List (List Char)) :
    Nat → Nat → List Char
  | _, 0 => base
  | counter, fuel + 1 =>
    let cand := base ++ '-' :: natToChars counter
    if cand ∈ existing then findFree base existing (counter + 1) fuel else cand

/-- Uniqueness part of `BlogPost.generate_slug`: return the base token if
it is free in the slug collection, otherwise append `-1`, `-2`, …
until a free candidate is found. -/
def uniqueSlug (base : List Char) (existing : List (List Char)) : List Char :=
  if base ∈ existing then findFree base existing 1 (existing.length + 1) else base

/-- `BlogPost.generate_slug`, with the collection of already-stored post
slugs made explicit (`BlogPost.query.filter_by(slug=...)`). -/
def generate_slug (title : List Char) (existing : List (List Char)) : List Char :=
  uniqueSlug (slugBase title) existing

/-- `Category.generate_slug`: same base computation, but the source has no
collision loop and never consults existing category slugs. -/
def category_generate_slug (name : List Char) : List Char :=
  slugBase name

/-- Python `s.rsplit(' ', 1)[0]`: everything before the last space
character, or the whole string when it contains no space. -/
def rsplitHead (s : List Char) : List Char :=
  match s.reverse.dropWhile (fun c => c ≠ ' ') with
  | [] => s
  | _ :: rest => rest.reverse

/-- The ellipsis marker appended by `generate_excerpt`. -/
def ellipsis : List Char := "...".toList

/-- `BlogPost.generate_excerpt(length=150)`:
`if len(self.content) <= length: return self.content`;
`return self.content[:length].rsplit(' ', 1)[0] + '...'`. -/
def generate_excerpt (content : List Char) (length : Nat := 150) : List Char :=
  if content.length ≤ length then content
  else rsplitHead (content.take length) ++ ellipsis

/-- Word counter underlying Python `len(s.split())`: the number of maximal
runs of non-whitespace characters.  `inWord` records whether the previous
character was part of a word. -/
def wcAux (inWord : Bool) : List Char → Nat
  | [] => 0
  | c :: cs =>
    if isPySpace c then wcAux false cs
    else (if inWord then 0 else 1) + wcAux true cs

/-- `len(content.split())`. -/
def wordCount (content : List Char) : Nat :=
  wcAux false content

/-- `BlogPost.calculate_read_time`:
`word_count = len(self.content.split())`;
`minutes = max(1, word_count // 200)`; `return f"{minutes} min read"`. -/
def calculate_read_time (content : List Char) : List Char :=
  natToChars (max 1 (wordCount content / 200)) ++ " min read".toList

/-! ## Entity construction (`models.py`) -/

/-- Python truthiness of an optional string attribute: `None` and the empty
string are falsy. -/
def pyTruthyStr : Option (List Char) → Bool
  | none => false
  | some s => !s.isEmpty

/-- Python truthiness of an optional boolean attribute: `None` is falsy. -/
def pyTruthyBool : Option Bool → Bool
  | none => false
  | some b => b

/-- Attribute state of a `BlogPost` instance.  A field is `none` when the
corresponding keyword argument was not supplied; SQLAlchemy applies the
declared column defaults only when the row is flushed (`mkStored`), not in
`__init__`. -/
structure PostAttrs where
  title : Option (List Char) := none
  content : Option (List Char) := none
  excerpt : Option (List Char) := none
  slug : Option (List Char) := none
  published : Option Bool := none
  featured : Option Bool := none
  read_time : Option (List Char) := none
  date_published : Option Nat := none
  author_id : Option Nat := none
  category_id : Option Nat := none
deriving DecidableEq

/-- `BlogPost.__init__` after `super().__init__(**kwargs)`:
`if self.title and not self.slug: self.slug = self.generate_slug()`;
`if not self.excerpt and self.content: self.excerpt = self.generate_excerpt()`;
`if not self.read_time and self.content: self.read_time = self.calculate_read_time()`;
`if self.published and not self.date_published: self.date_published = datetime.utcnow()`.
`existing` is the set of slugs visible to `BlogPost.query` and `now` the
construction time. -/
def blogPostInit (kw : PostAttrs) (existing : List (List Char)) (now : Nat) :
    PostAttrs :=
  let s1 := if pyTruthyStr kw.title && !pyTruthyStr kw.slug then
      { kw with slug := some (generate_slug (kw.title.getD []) existing) }
    else kw
  let s2 := if !pyTruthyStr s1.excerpt && pyTruthyStr s1.content then
      { s1 with excerpt := some (generate_excerpt (s1.content.getD []) 150) }
    else s1
  let s3 := if !pyTruthyStr s2.read_time && pyTruthyStr s2.content then
      { s2 with read_time := some (calculate_read_time (s2.content.getD [])) }
    else s2
  if pyTruthyBool s3.published && s3.date_published.isNone then
    { s3 with date_published := some now }
  else s3

/-- Attribute state of a `Category` instance. -/
structure CategoryAttrs where
  name : Option (List Char) := none
  slug : Option (List Char) := none
deriving DecidableEq

/-- `Category.__init__` after `super().__init__(**kwargs)`:
`if self.name and not self.slug: self.slug = self.generate_slug()`.
Note that `Category.generate_slug` takes no collection argument. -/
def categoryInit (kw : CategoryAttrs) : CategoryAttrs :=
  if pyTruthyStr kw.name && !pyTruthyStr kw.slug then
    { kw with slug := some (category_generate_slug (kw.name.getD [])) }
  else kw

/-- A flushed `blog_post` row. -/
structure StoredPost where
  id : Nat
  title : List Char
  content : List Char
  excerpt : Option (List Char)
  slug : Option (List Char)
  published : Bool
  featured : Bool
  read_time : List Char
  date_published : Option Nat
  date_created : Nat
  author_id : Nat
  category_id : Nat
deriving DecidableEq

/-- Flushing a constructed `BlogPost`: the column defaults declared in
`models.py` are applied to attributes still unset
(`published` → `True`, `featured` → `False`, `read_time` → `'5 min read'`,
`date_created` → `utcnow`); `date_published` has no column default. -/
def mkStored (a : PostAttrs) (id now : Nat) : StoredPost where
  id := id
  title := a.title.getD []
  content := a.content.getD []
  excerpt := a.excerpt
  slug := a.slug
  published := a.published.getD true
  featured := a.featured.getD false
  read_time := a.read_time.getD (("5 min read").toList)
  date_published := a.date_published
  date_created := now
  author_id := a.author_id.getD 0
  category_id := a.category_id.getD 0

/-- A `comment` row.  `api_add_comment` never passes `parent_id`, so the
constructor leaves it `None` unless set explicitly. -/
structure StoredComment where
  id : Nat
  content : List Char
  author_id : Nat
  post_id : Nat
  parent_id : Option Nat := none
deriving DecidableEq

/-- The persisted state reachable through the HTTP layer, with the
auto-increment counters of the primary keys. -/
structure Store where
  posts : List StoredPost := []
  comments : List StoredComment := []
  nextPostId : Nat := 1
  nextCommentId : Nat := 1
deriving DecidableEq

/-! ## SQL `LIKE` matching

`BlogPost.title.contains(term)` compiles to ``title LIKE '%' || term || '%'``.
Under the configured SQLite backend (`config.py`), `LIKE` is
case-insensitive for ASCII letters, `%` matches any character sequence and
`_` matches exactly one character.  SQLite folds only ASCII case, so
`Char.toLower` (ASCII-only) is the right model here, unlike the
Python-side `pyLower`. -/

/-- Fuelled `LIKE` matcher.  Every recursive call decreases
`pat.length + s.length`, so a fuel above that sum gives the limit
behaviour (`likeM`). -/
def likeMatchFuel : Nat → List Char → List Char → Bool
  | 0, _, _ => false
  | fuel + 1, pat, s =>
    match pat with
    | [] => s.isEmpty
    | c :: p =>
      if c = '%' then
        likeMatchFuel fuel p s ||
          (match s with
           | [] => false
           | _ :: cs => likeMatchFuel fuel (c :: p) cs)
      else if c = '_' then
        match s with
        | [] => false
        | _ :: cs => likeMatchFuel fuel p cs
      else
        match s with
        | [] => false
        | d :: cs => (Char.toLower c == Char.toLower d) && likeMatchFuel fuel p cs

/-- `s LIKE pat` under SQLite semantics. -/
def likeM (pat s : List Char) : Bool :=
  likeMatchFuel (pat.length + s.length + 1) pat s

/-- `column.contains(term)`: ``column LIKE '%' || term || '%'``. -/
def likeContains (term field : List Char) : Bool :=
  likeM ('%' :: term ++ ['%']) field

/-- The filter expression shared by `api_get_posts` and `api_search`:
`BlogPost.title.contains(q) | BlogPost.content.contains(q) |
BlogPost.excerpt.contains(q)`.  A `NULL` excerpt makes its disjunct
`NULL`, which never selects a row on its own. -/
def tripleLike (term : List Char) (p : StoredPost) : Bool :=
  likeContains term p.title || likeContains term p.content ||
    (match p.excerpt with
     | none => false
     | some e => likeContains term e)

/-- The free-text search stage of `api_get_posts`:
`if search_query: query = query.filter(title.contains(..) | ...)`. -/
def searchFilter (posts : List StoredPost) (term : List Char) :
    List StoredPost :=
  if term.isEmpty then posts else posts.filter (tripleLike term)

/-- `api_search`: strip the term, short-circuit to an empty result set for
missing or short terms, otherwise query storage and keep at most 10 rows.
The boolean records whether the storage layer was queried; the function is
total, so no input makes the endpoint fail. -/
def apiSearch (s : Store) (term : List Char) : List StoredPost × Bool :=
  let t := pyStrip term
  if t = [] ∨ t.length < 3 then ([], false)
  else ((s.posts.filter (tripleLike t)).take 10, true)

/-! ## Mutating HTTP operations (`app.py`) -/

/-- The state-mutating operations the HTTP layer exposes over posts and
comments: `create_post` and `api_add_comment`.  (There is no edit-post
operation in the source.) -/
inductive AppOp where
  | createPost (authorId : Nat) (title content excerpt : List Char)
      (categoryId : Nat) (featured : Bool)
  | addComment (authorId postId : Nat) (content : List Char)

/-- One request against the store at time `now`.

`createPost` first runs the `BlogPostForm` length validators
(`forms.py`: title 5–200, content ≥ 50, excerpt ≤ 500) and on failure
leaves the store unchanged; on success it constructs the post exactly as
`create_post` does — note that neither `published` nor `date_published`
is passed — and flushes it.  The tag attachment loop of `create_post` is
not modelled: it only populates the post↔tag association, which no
property here concerns.

`addComment` follows `api_add_comment`: reject blank content (400),
reject an unknown post id (404), otherwise insert a comment whose
`parent_id` is never set. -/
def applyOp (now : Nat) (s : Store) : AppOp → Store
  | AppOp.createPost authorId title content excerpt categoryId featured =>
    if 5 ≤ title.length ∧ title.length ≤ 200 ∧ 50 ≤ content.length ∧
        excerpt.length ≤ 500 then
      let attrs := blogPostInit
        { title := some title, content := some content,
          excerpt := some excerpt, author_id := some authorId,
          category_id := some categoryId, featured := some featured }
        (s.posts.filterMap StoredPost.slug) now
      { s with posts := s.posts ++ [mkStored attrs s.nextPostId now],
               nextPostId := s.nextPostId + 1 }
    else s
  | AppOp.addComment authorId postId content =>
    let body := pyStrip content
    if body = [] then s
    else if s.posts.all (fun p => p.id != postId) then s
    else
      { s with
        comments := s.comments ++
          [{ id := s.nextCommentId, content := body, author_id := authorId,
             post_id := postId, parent_id := none }],
        nextCommentId := s.nextCommentId + 1 }

/-- The claimed threading invariant, per comment: if a parent-comment
reference is present, every stored comment carrying that id belongs to the
same post as the child. -/
def parentOkB (comments : List StoredComment) (c : StoredComment) : Bool :=
  match c.parent_id with
  | none => true
  | some pid => comments.all fun pc => !(pc.id == pid) || (pc.post_id == c.post_id)

/-- The threading invariant over a store. -/
def SameThread (s : Store) : Prop :=
  ∀ c ∈ s.comments, parentOkB s.comments c = true

/-- Well-formedness of the auto-increment counter: every comment id, and
every parent reference, is below `nextCommentId`. -/
def commentWfB (s : Store) (c : StoredComment) : Bool :=
  decide (c.id < s.nextCommentId) &&
    (match c.parent_id with
     | none => true
     | some pid => decide (pid < s.nextCommentId))

/-- Store well-formedness. -/
def StoreWF (s : Store) : Prop :=
  ∀ c ∈ s.comments, commentWfB s c = true

/-! ## Concrete fixtures and claim-level predicates -/

/-- A concrete stored post used to instantiate witnesses; its title, content
and excerpt all contain the letters `ab`. -/
def samplePost : StoredPost where
  id := 1
  title := "About absurd tabs".toList
  content := "A table about absolute tabulation.".toList
  excerpt := some ("A table about".toList)
  slug := some ("about-absurd-tabs".toList)
  published := true
  featured := false
  read_time := "1 min read".toList
  date_published := some 10
  date_created := 10
  author_id := 1
  category_id := 1

/-- The behaviour C6 asserts for two posts created in sequence with the
same title against a post collection: the slugs differ, and the second
slug is the base slug of the first with `"-1"` appended.  The collection
seen by the second creation contains the slug stored by the first. -/
def twoPostsSlugClaim (existing : List (List Char)) (title : List Char) :
    Prop :=
  generate_slug title existing ≠
      generate_slug title (existing ++ [generate_slug title existing]) ∧
    generate_slug title (existing ++ [generate_slug title existing]) =
      slugBase title ++ ("-1").toList

/-- The behaviour C2 asserts: constructing a `Category` without a slug
invokes the slug generator, collision-append disambiguation included,
against the collection of existing category slugs. -/
def categorySlugClaim (existing : List (List Char)) (name : List Char) :
    Prop :=
  (categoryInit { name := some name, slug := none }).slug =
    some (uniqueSlug (category_generate_slug name) existing)

/-- The behaviour C1 asserts of the excerpt generator: content at or below
the maximum (and in particular empty content) is returned unchanged;
longer content yields a prefix of the content, cut at a whitespace
boundary — whatever is dropped starts with whitespace, so no word is ever
split — with the ellipsis appended and total length at most the maximum
plus the ellipsis length. -/
def excerptClaim (content : List Char) (n : Nat) : Prop :=
  (content.length ≤ n → generate_excerpt content n = content) ∧
    (content = [] → generate_excerpt content n = []) ∧
    (n < content.length →
      ∃ body t, generate_excerpt content n = body ++ ellipsis ∧
        body ++ t = content ∧
        (generate_excerpt content n).length ≤ n + ellipsis.length ∧
        ∀ c t2, t = c :: t2 → isPySpace c = true)

/-- A 192-character content with spaces, used to instantiate the amended
C1. -/
def longText : List Char := (List.replicate 32 (("abcde ").toList)).flatten

/-- The keyword arguments of the `BlogPost(...)` call in `create_post`:
`published` and `date_published` are not among them. -/
def routeKwargs : PostAttrs :=
  { title := some (("Hello World Post").toList),
    content := some (("Fifty characters of body text for a sample post.").toList),
    excerpt := some [],
    author_id := some 1,
    category_id := some 1,
    featured := some false }

/-- Keyword arguments with an explicit truthy `published` flag. -/
def publishedKwargs : PostAttrs :=
  { title := some (("Hi there").toList),
    published := some true }

/-- A concrete store with one post and one comment, used to instantiate
the C4 witness. -/
def sampleComment : StoredComment :=
  { id := 1,
    content := ("Nice").toList,
    author_id := 1,
    post_id := 1,
    parent_id := none }

def sampleStore : Store :=
  { posts := [samplePost],
    comments := [sampleComment],
    nextPostId := 2,
    nextCommentId := 2 }

/-- Case-insensitive (ASCII fold) substring relation — the spec's
"case-insensitive substring match". -/
def ciSubstring (term s : List Char) : Prop :=
  term.map Char.toLower <:+: s.map Char.toLower

/-- The selection predicate C7 asserts: the term is a case-insensitive
substring of the title, the content or the excerpt. -/
def searchClaimMatch (term : List Char) (p : StoredPost) : Prop :=
  ciSubstring term p.title ∨ ciSubstring term p.content ∨
    (match p.excerpt with
     | none => False
     | some e => ciSubstring term e)

/-- A stored post titled `"xyz"`, used for the C7 counterexample. -/
def searchCexPost : StoredPost where
  id := 2
  title := "xyz".toList
  content := "qqq".toList
  excerpt := some ("qqq".toList)
  slug := some ("xyz".toList)
  published := true
  featured := false
  read_time := "1 min read".toList
  date_published := none
  date_created := 0
  author_id := 1
  category_id := 1

/-! ## General list helpers -/

theorem length_dropWhile_le (p : Char → Bool) :
    ∀ l : List Char, (l.dropWhile p).length ≤ l.length := by
  intro l
  induction l with
  | nil => simp
  | cons c cs ih =>
    by_cases h : p c
    · rw [List.dropWhile_cons_of_pos h]; exact Nat.le_succ_of_le ih
    · rw [List.dropWhile_cons_of_neg h]

theorem mem_of_mem_dropWhile {x : Char} (p : Char → Bool) :
    ∀ l : List Char, x ∈ l.dropWhile p → x ∈ l := by
  intro l
  induction l with
  | nil => simp
  | cons c cs ih =>
    by_cases h : p c
    · rw [List.dropWhile_cons_of_pos h]
      intro hx; exact List.mem_cons_of_mem c (ih hx)
    · rw [List.dropWhile_cons_of_neg h]; exact id

theorem head?_dropWhile_not (p : Char → Bool) :
    ∀ (l : List Char) (x : Char), (l.dropWhile p).head? = some x → p x = false := by
  intro l
  induction l with
  | nil => simp
  | cons c cs ih =>
    intro x
    by_cases h : p c
    · rw [List.dropWhile_cons_of_pos h]; exact ih x
    · rw [List.dropWhile_cons_of_neg h]
      intro hx
      cases hx
      exact Bool.eq_false_iff.mpr h

theorem getLast?_dropWhile (p : Char → Bool) :
    ∀ l : List Char, l.dropWhile p ≠ [] → (l.dropWhile p).getLast? = l.getLast? := by
  intro l
  induction l with
  | nil => simp
  | cons c cs ih =>
    by_cases h : p c
    · rw [List.dropWhile_cons_of_pos h]
      intro hne
      have hcs : cs ≠ [] := by
        intro hc; rw [hc] at hne; exact hne rfl
      rw [ih hne]
      have : c :: cs = [c] ++ cs := rfl
      rw [this, List.getLast?_append_of_ne_nil [c] hcs]
    · rw [List.dropWhile_cons_of_neg h]
      intro _; rfl

theorem pyStrip_length_le (s : List Char) : (pyStrip s).length ≤ s.length := by
  unfold pyStrip
  rw [List.length_reverse]
  calc ((s.dropWhile isPySpace).reverse.dropWhile isPySpace).length
      ≤ (s.dropWhile isPySpace).reverse.length := length_dropWhile_le _ _
    _ = (s.dropWhile isPySpace).length := List.length_reverse _
    _ ≤ s.length := length_dropWhile_le _ _

theorem map_eq_append_split {α β : Type} (f : α → β) :
    ∀ (u : List β) (l : List α) (v : List β), l.map f = u ++ v →
      ∃ l₁ l₂, l = l₁ ++ l₂ ∧ l₁.map f = u ∧ l₂.map f = v := by
  intro u
  induction u with
  | nil =>
    intro l v h
    exact ⟨[], l, rfl, rfl, by simpa using h⟩
  | cons b u ih =>
    intro l v h
    cases l with
    | nil => simp at h
    | cons a l' =>
      rw [List.map_cons, List.cons_append] at h
      have hb : f a = b := (List.cons.injEq _ _ _ _ ▸ h).1
      have ht : l'.map f = u ++ v := (List.cons.injEq _ _ _ _ ▸ h).2
      obtain ⟨l₁, l₂, hl, h1, h2⟩ := ih l' v ht
      exact ⟨a :: l₁, l₂, by rw [hl, List.cons_append],
        by rw [List.map_cons, hb, h1], h2⟩

/-! ## C8 — read-time estimator -/

/-- C8: for every body content, `calculate_read_time` computes the
whitespace-delimited word count, derives minutes as the count divided by
200 with a floor of one, and renders `"<minutes> min read"`; 0–199 words
give `"1 min read"` and exactly 400 words give `"2 min read"`. -/
theorem read_time_spec (content : List Char) :
    calculate_read_time content
        = natToChars (max 1 (wordCount content / 200)) ++ (" min read").toList ∧
      (wordCount content ≤ 199 →
        calculate_read_time content = ("1 min read").toList) ∧
      (wordCount content = 400 →
        calculate_read_time content = ("2 min read").toList) := by
  refine ⟨rfl, ?_, ?_⟩
  · intro h
    have hz : wordCount content / 200 = 0 := Nat.div_eq_of_lt (by omega)
    unfold calculate_read_time
    rw [hz]
    decide
  · intro h
    unfold calculate_read_time
    rw [h]
    decide

set_option maxRecDepth 8000 in
/-- Witness for C8 at two concrete bodies: a 2-word text and a 400-word
text. -/
theorem read_time_spec_witness :
    calculate_read_time ("hello world".toList) = ("1 min read").toList ∧
      calculate_read_time ((List.replicate 400 (("a ").toList)).flatten)
        = ("2 min read").toList :=
  ⟨(read_time_spec _).2.1 (by decide), (read_time_spec _).2.2 (by decide)⟩

/-! ## C9 — minimum live-search length -/

/-- C9: a live-search term shorter than three characters (the empty term
included) makes `api_search` answer with an empty result set and no
storage query (the boolean component), and the operation is a total
function, so it cannot fail on such input. -/
theorem live_search_short_circuit (s : Store) (term : List Char)
    (h : term.length < 3) : apiSearch s term = ([], false) := by
  unfold apiSearch
  have hl : (pyStrip term).length < 3 :=
    Nat.lt_of_le_of_lt (pyStrip_length_le term) h
  rw [if_pos (Or.inr hl)]

/-- Witness for C9: the two-character term `"ab"` against a store whose
only post would match it. -/
theorem live_search_short_circuit_witness :
    apiSearch { posts := [samplePost] } (("ab").toList) = ([], false) :=
  live_search_short_circuit _ _ (by decide)

/-! ## Slug generator lemmas -/

theorem mem_collapseAux {x : Char} :
    ∀ (b : Bool) (l : List Char), x ∈ collapseAux b l →
      x = '-' ∨ (x ∈ l ∧ isSepChar x = false) := by
  intro b l
  induction l generalizing b with
  | nil => simp [collapseAux]
  | cons c cs ih =>
    intro h
    rcases hc : isSepChar c with - | -
    · simp only [collapseAux, hc, Bool.false_eq_true, if_false] at h
      rcases List.mem_cons.mp h with h1 | h2
      · exact Or.inr ⟨by rw [h1]; exact List.mem_cons_self c cs, h1 ▸ hc⟩
      · rcases ih false h2 with h3 | ⟨h4, h5⟩
        · exact Or.inl h3
        · exact Or.inr ⟨List.mem_cons_of_mem c h4, h5⟩
    · simp only [collapseAux, hc, if_true] at h
      rcases b with - | -
      · simp only [Bool.false_eq_true, if_false] at h
        rcases List.mem_cons.mp h with h1 | h2
        · exact Or.inl h1
        · rcases ih true h2 with h3 | ⟨h4, h5⟩
          · exact Or.inl h3
          · exact Or.inr ⟨List.mem_cons_of_mem c h4, h5⟩
      · simp only [if_true] at h
        rcases ih true h with h3 | ⟨h4, h5⟩
        · exact Or.inl h3
        · exact Or.inr ⟨List.mem_cons_of_mem c h4, h5⟩

theorem mem_stripHyphens {x : Char} (l : List Char) (h : x ∈ stripHyphens l) :
    x ∈ l := by
  unfold stripHyphens at h
  rw [List.mem_reverse] at h
  have h2 := mem_of_mem_dropWhile _ _ h
  rw [List.mem_reverse] at h2
  exact mem_of_mem_dropWhile _ _ h2

theorem stripHyphens_getLast (l : List Char) :
    (stripHyphens l).getLast? ≠ some '-' := by
  unfold stripHyphens
  rw [List.getLast?_reverse]
  intro h
  have := head?_dropWhile_not _ _ _ h
  simp at this

theorem stripHyphens_head (l : List Char) :
    (stripHyphens l).head? ≠ some '-' := by
  unfold stripHyphens
  intro h
  rw [List.head?_reverse] at h
  rcases hd : (l.dropWhile (fun c => c = '-')).reverse.dropWhile (fun c => c = '-')
      with - | ⟨y, ys⟩
  · rw [hd] at h; simp at h
  · have hne : (l.dropWhile (fun c => c = '-')).reverse.dropWhile
        (fun c => c = '-') ≠ [] := by rw [hd]; simp
    rw [getLast?_dropWhile _ _ hne, List.getLast?_reverse] at h
    have := head?_dropWhile_not _ _ _ h
    simp at this

theorem ascii_slug_char : ∀ m : Nat, m < 128 →
    (keepChar (pyLower (Char.ofNat m)) &&
        !isSepChar (pyLower (Char.ofNat m))) = true →
    isSlugChar (pyLower (Char.ofNat m)) = true := by decide

/-! ## C5 — slug alphabet -/

/-- Counterexample to C5 as stated: Python's `\w` is Unicode-aware, so
the non-ASCII letter `'é'` of the title `"café"` is kept by both
substitutions and appears in the generated slug, outside `[a-z0-9-]`. -/
theorem slug_alphabet_cex :
    generate_slug (("café").toList) [] = ("café").toList ∧
      ¬ (∀ x ∈ generate_slug (("café").toList) [], isSlugChar x = true) := by
  decide

/-- C5 amended: for every ASCII free-text title, the slug generated
against an empty collection contains only the characters `[a-z0-9-]`, has
no leading or trailing hyphen, and is deterministic for identical input.
(Non-ASCII word characters such as `'é'` survive into the slug, so the
restriction to ASCII titles is forced.) -/
theorem slug_alphabet (title : List Char)
    (hascii : ∀ c ∈ title, c.toNat < 128) :
    (∀ x ∈ generate_slug title [], isSlugChar x = true) ∧
      (generate_slug title []).head? ≠ some '-' ∧
      (generate_slug title []).getLast? ≠ some '-' ∧
      (∀ t, t = title → generate_slug t [] = generate_slug title []) := by
  have hg : generate_slug title [] = slugBase title := by
    simp [generate_slug, uniqueSlug]
  refine ⟨?_, ?_, ?_, ?_⟩
  · intro x hx
    rw [hg] at hx
    unfold slugBase collapseRuns at hx
    have hx2 := mem_stripHyphens _ hx
    rcases mem_collapseAux false _ hx2 with h | ⟨hmem, hsep⟩
    · rw [h]; decide
    · rw [List.mem_filter] at hmem
      obtain ⟨hmemmap, hkeep⟩ := hmem
      rw [List.mem_map] at hmemmap
      obtain ⟨c, hc, hcx⟩ := hmemmap
      have hlt := hascii c hc
      have key := ascii_slug_char c.toNat hlt
      rw [Char.ofNat_toNat] at key
      rw [← hcx] at hkeep hsep ⊢
      exact key (by rw [hkeep, hsep]; rfl)
  · rw [hg]; unfold slugBase; exact stripHyphens_head _
  · rw [hg]; unfold slugBase; exact stripHyphens_getLast _
  · intro t ht; rw [ht]

/-- Witness for C5 at the concrete ASCII title `"Hello, World! 123"`. -/
theorem slug_alphabet_witness :
    (∀ x ∈ generate_slug (("Hello, World! 123").toList) [],
        isSlugChar x = true) ∧
      (generate_slug (("Hello, World! 123").toList) []).head? ≠ some '-' ∧
      (generate_slug (("Hello, World! 123").toList) []).getLast? ≠ some '-' ∧
      (∀ t, t = ("Hello, World! 123").toList →
        generate_slug t [] = generate_slug (("Hello, World! 123").toList) []) :=
  slug_alphabet _ (by decide)

/-! ## C10 — all-strippable titles give the empty slug -/

theorem collapseAux_all_sep :
    ∀ l : List Char, (∀ x ∈ l, isSepChar x = true) →
      collapseAux true l = [] ∧ (l ≠ [] → collapseAux false l = ['-']) := by
  intro l
  induction l with
  | nil => exact fun _ => ⟨rfl, fun h => absurd rfl h⟩
  | cons c cs ih =>
    intro h
    have hc : isSepChar c = true := h c (List.mem_cons_self c cs)
    have hcs : ∀ x ∈ cs, isSepChar x = true :=
      fun x hx => h x (List.mem_cons_of_mem c hx)
    obtain ⟨ih1, -⟩ := ih hcs
    constructor
    · simp [collapseAux, hc, ih1]
    · intro _
      simp [collapseAux, hc, ih1]

theorem ascii_nonword_lower : ∀ m : Nat, m < 128 →
    isWordChar (Char.ofNat m) = false →
    pyLower (Char.ofNat m) = Char.ofNat m := by decide

theorem ascii_nonword_keep_sep : ∀ m : Nat, m < 128 →
    isWordChar (Char.ofNat m) = false → keepChar (Char.ofNat m) = true →
    isSepChar (Char.ofNat m) = true := by decide

theorem map_self_of_fix {l : List Char} (f : Char → Char)
    (h : ∀ c ∈ l, f c = c) : l.map f = l := by
  induction l with
  | nil => rfl
  | cons c cs ih =>
    rw [List.map_cons, h c (List.mem_cons_self c cs),
      ih fun x hx => h x (List.mem_cons_of_mem c hx)]

/-- C10: a non-empty title made only of characters the generator strips
(no ASCII letters, digits or underscores) has the empty base slug; a Post
or Category constructed from it gets the empty slug, and the collision
loop yields `"-1"`, `"-2"`, … for subsequent posts with such titles. -/
theorem empty_base_slug (title : List Char) (hne : title ≠ [])
    (h : ∀ c ∈ title, c.toNat < 128 ∧ isWordChar c = false) :
    slugBase title = [] ∧
      generate_slug title [] = [] ∧
      generate_slug title [[]] = ("-1").toList ∧
      generate_slug title [[], ("-1").toList] = ("-2").toList ∧
      (categoryInit { name := some title, slug := none }).slug = some [] ∧
      (blogPostInit { title := some title } [] 0).slug = some [] := by
  have htne : title.isEmpty = false := by
    cases title
    · exact absurd rfl hne
    · rfl
  have hmap : title.map pyLower = title := by
    apply map_self_of_fix
    intro c hc
    obtain ⟨ha, hw⟩ := h c hc
    have := ascii_nonword_lower c.toNat ha
    rw [Char.ofNat_toNat] at this
    exact this hw
  have hbase : slugBase title = [] := by
    unfold slugBase collapseRuns
    rw [hmap]
    rcases hfilter : title.filter keepChar with - | ⟨y, ys⟩
    · decide
    · have hall : ∀ x ∈ title.filter keepChar, isSepChar x = true := by
        intro x hx
        rw [List.mem_filter] at hx
        obtain ⟨hx1, hx2⟩ := hx
        obtain ⟨ha, hw⟩ := h x hx1
        have := ascii_nonword_keep_sep x.toNat ha
        rw [Char.ofNat_toNat] at this
        exact this hw hx2
      have hcoll := (collapseAux_all_sep _ hall).2 (by rw [hfilter]; simp)
      rw [hfilter] at hcoll
      rw [hcoll]
      decide
  have hslug0 : generate_slug title [] = [] := by
    unfold generate_slug
    rw [hbase]
    decide
  refine ⟨hbase, hslug0, ?_, ?_, ?_, ?_⟩
  · unfold generate_slug; rw [hbase]; decide
  · unfold generate_slug; rw [hbase]; decide
  · simp [categoryInit, pyTruthyStr, htne, category_generate_slug, hbase]
  · simp [blogPostInit, pyTruthyStr, pyTruthyBool, htne, hslug0]

/-- Witness for C10 at the concrete title `"!!!"`. -/
theorem empty_base_slug_witness :
    slugBase (("!!!").toList) = [] ∧
      generate_slug (("!!!").toList) [] = [] ∧
      generate_slug (("!!!").toList) [[]] = ("-1").toList ∧
      generate_slug (("!!!").toList) [[], ("-1").toList] = ("-2").toList ∧
      (categoryInit { name := some (("!!!").toList), slug := none }).slug
        = some [] ∧
      (blogPostInit { title := some (("!!!").toList) } [] 0).slug = some [] :=
  empty_base_slug _ (by decide) (by decide)

/-! ## C6 — two posts with identical titles -/

theorem findFree_step (base : List Char) (ex : List (List Char))
    (ctr fuel : Nat) (h : base ++ '-' :: natToChars ctr ∉ ex) :
    findFree base ex ctr (fuel + 1) = base ++ '-' :: natToChars ctr := by
  simp [findFree, h]

/-- Counterexample to C6 as stated: against the collection that already
holds `"hello-world"`, two posts titled `"Hello World"` get the slugs
`"hello-world-1"` and `"hello-world-2"` — distinct, but the second is not
the base slug with `"-1"` appended. -/
theorem two_posts_slug_cex :
    ¬ twoPostsSlugClaim [("hello-world").toList] (("Hello World").toList) := by
  unfold twoPostsSlugClaim
  decide

/-- C6 amended: the conclusion holds whenever neither the base slug nor
the base slug with `"-1"` appended is already present in the collection
(in particular against a fresh collection). -/
theorem two_posts_slug_amended (existing : List (List Char))
    (title : List Char) (h1 : slugBase title ∉ existing)
    (h2 : slugBase title ++ ("-1").toList ∉ existing) :
    twoPostsSlugClaim existing title := by
  have hone : ('-' :: natToChars 1 : List Char) = ("-1").toList := by decide
  have e1 : generate_slug title existing = slugBase title := by
    simp [generate_slug, uniqueSlug, h1]
  have hlen : slugBase title ++ ("-1").toList ≠ slugBase title := by
    intro hcontra
    have := congrArg List.length hcontra
    simp at this
  have e2 : generate_slug title (existing ++ [slugBase title]) =
      slugBase title ++ ("-1").toList := by
    unfold generate_slug uniqueSlug
    have hin : slugBase title ∈ existing ++ [slugBase title] :=
      List.mem_append_right _ (List.mem_singleton.mpr rfl)
    rw [if_pos hin]
    have hlen1 : (existing ++ [slugBase title]).length + 1
        = existing.length + 1 + 1 := by simp
    rw [hlen1]
    have hnotin : slugBase title ++ '-' :: natToChars 1 ∉
        existing ++ [slugBase title] := by
      rw [hone]
      intro hmem
      rcases List.mem_append.mp hmem with hmem1 | hmem2
      · exact h2 hmem1
      · exact hlen (List.mem_singleton.mp hmem2)
    rw [findFree_step _ _ _ _ hnotin, hone]
  unfold twoPostsSlugClaim
  rw [e1]
  refine ⟨?_, e2⟩
  intro hcontra
  rw [e2] at hcontra
  exact hlen hcontra.symm

/-- Witness for the amended C6: a fresh collection and the title
`"Hello World"`. -/
theorem two_posts_slug_amended_witness :
    twoPostsSlugClaim [] (("Hello World").toList) :=
  two_posts_slug_amended _ _ (by decide) (by decide)

/-! ## C2 — category slug generation -/

/-- Counterexample to C2 as stated: with `"tutorial"` already among the
category slugs, constructing a `Category` named `"Tutorial"` yields the
colliding slug `"tutorial"`, not the disambiguated `"tutorial-1"` the
claim requires — `Category.generate_slug` has no collision loop. -/
theorem category_slug_cex :
    ¬ categorySlugClaim [("tutorial").toList] (("Tutorial").toList) := by
  unfold categorySlugClaim
  decide

/-- C2 amended: a `Category` constructed without an explicit slug gets
exactly the base token of its name — lowercased, stripped and hyphenated —
with no collision disambiguation; construction never consults existing
category slugs. -/
theorem category_slug_no_disambiguation (kw : CategoryAttrs)
    (hname : pyTruthyStr kw.name = true)
    (hslug : pyTruthyStr kw.slug = false) :
    (categoryInit kw).slug = some (category_generate_slug (kw.name.getD [])) := by
  simp [categoryInit, hname, hslug]

/-- Witness for the amended C2: the category name `"Tutorial"`. -/
theorem category_slug_no_disambiguation_witness :
    (categoryInit { name := some (("Tutorial").toList), slug := none }).slug
      = some (category_generate_slug (("Tutorial").toList)) :=
  category_slug_no_disambiguation _ (by decide) (by decide)

/-! ## Excerpt generator lemmas -/

theorem rsplitHead_no_space (s : List Char) (h : ' ' ∉ s) : rsplitHead s = s := by
  unfold rsplitHead
  have hnil : s.reverse.dropWhile (fun c => c ≠ ' ') = [] := by
    rw [List.dropWhile_eq_nil_iff]
    intro x hx
    rw [List.mem_reverse] at hx
    simp only [ne_eq, decide_eq_true_eq]
    intro hxe
    exact h (hxe ▸ hx)
  rw [hnil]

theorem rsplitHead_split (s : List Char) (h : ' ' ∈ s) :
    ∃ t, rsplitHead s ++ ' ' :: t = s ∧ ' ' ∉ t := by
  rcases hd : s.reverse.dropWhile (fun c => c ≠ ' ') with - | ⟨x, rest⟩
  · exfalso
    rw [List.dropWhile_eq_nil_iff] at hd
    have := hd ' ' (List.mem_reverse.mpr h)
    simp at this
  · have hx : x = ' ' := by
      have hh := head?_dropWhile_not (fun c => decide (c ≠ ' ')) s.reverse x
        (by rw [hd]; rfl)
      simpa using hh
    have hsplit := List.takeWhile_append_dropWhile
      (p := fun c => decide (c ≠ ' ')) (l := s.reverse)
    rw [hd, hx] at hsplit
    refine ⟨(s.reverse.takeWhile (fun c => decide (c ≠ ' '))).reverse, ?_, ?_⟩
    · unfold rsplitHead
      rw [hd]
      have hs := congrArg List.reverse hsplit
      rw [List.reverse_reverse, List.reverse_append, List.reverse_cons,
        List.append_assoc, List.singleton_append] at hs
      exact hs
    · intro hmem
      rw [List.mem_reverse] at hmem
      have := List.mem_takeWhile_imp hmem
      simp at this

set_option maxRecDepth 4000 in
/-- Counterexample to C1 as stated: on 151 copies of `'a'` — a single
151-character word — the generator keeps the first 150 characters and
appends `"..."`, splitting the word: the dropped remainder starts with
`'a'`, not whitespace, because `rsplit(' ', 1)` finds no space to trim
back to. -/
theorem excerpt_word_split_cex : ¬ excerptClaim (List.replicate 151 'a') 150 := by
  intro hclaim
  obtain ⟨body, t, heq, hbt, -, hws⟩ := hclaim.2.2 (by decide)
  have hcomp : generate_excerpt (List.replicate 151 'a') 150
      = List.replicate 150 'a' ++ ellipsis := by decide
  rw [hcomp] at heq
  have hbody : body = List.replicate 150 'a' :=
    (List.append_cancel_right heq).symm
  rw [hbody] at hbt
  have h151 : List.replicate 151 'a' = List.replicate 150 'a' ++ ['a'] := by
    decide
  rw [h151] at hbt
  have ht : t = ['a'] := List.append_cancel_left hbt
  have := hws 'a' [] (by rw [ht])
  simp [isPySpace] at this

/-- C1 amended: content at or below the maximum (empty content included)
comes back unchanged; longer content yields `body ++ "..."` where `body`
is a prefix of the 150-character truncation and the total length is at
most the maximum plus the ellipsis length.  When the truncated prefix
contains a space, the cut is at its last space — the dropped remainder
starts with a space, so no word is split; when it contains no space the
whole truncated prefix is kept, which can split a word. -/
theorem generate_excerpt_spec (content : List Char) (n : Nat) :
    (content.length ≤ n → generate_excerpt content n = content) ∧
      (content = [] → generate_excerpt content n = []) ∧
      (n < content.length →
        ∃ body rest, content.take n = body ++ rest ∧
          generate_excerpt content n = body ++ ellipsis ∧
          (generate_excerpt content n).length ≤ n + ellipsis.length ∧
          (' ' ∈ content.take n → ∃ t, rest = ' ' :: t ∧ ' ' ∉ t) ∧
          (' ' ∉ content.take n → body = content.take n ∧ rest = [])) := by
  refine ⟨?_, ?_, ?_⟩
  · intro h
    unfold generate_excerpt
    rw [if_pos h]
  · intro h
    subst h
    simp [generate_excerpt]
  · intro h
    have hnot : ¬ content.length ≤ n := Nat.not_le.mpr h
    have htake : (content.take n).length ≤ n := by
      rw [List.length_take]
      exact Nat.min_le_left _ _
    unfold generate_excerpt
    rw [if_neg hnot]
    by_cases hsp : ' ' ∈ content.take n
    · obtain ⟨t, ht, htno⟩ := rsplitHead_split _ hsp
      refine ⟨rsplitHead (content.take n), ' ' :: t, ht.symm, rfl, ?_,
        fun _ => ⟨t, rfl, htno⟩, fun hn => absurd hsp hn⟩
      have hlen := congrArg List.length ht
      rw [List.length_append] at hlen
      rw [List.length_append]
      have : ellipsis.length = 3 := by decide
      rw [this]
      simp only [List.length_cons] at hlen
      omega
    · rw [rsplitHead_no_space _ hsp]
      refine ⟨content.take n, [], by rw [List.append_nil], rfl, ?_,
        fun hc => absurd hc hsp, fun _ => ⟨rfl, rfl⟩⟩
      rw [List.length_append]
      have : ellipsis.length = 3 := by decide
      rw [this]
      omega

set_option maxRecDepth 4000 in
/-- Witness for the amended C1: a short content is returned unchanged and
a long content obeys the length bound. -/
theorem generate_excerpt_spec_witness :
    generate_excerpt (("short text").toList) 150 = ("short text").toList ∧
      (generate_excerpt longText 150).length ≤ 150 + ellipsis.length :=
  ⟨(generate_excerpt_spec _ 150).1 (by decide), by
    obtain ⟨b, r, -, -, hlen, -, -⟩ :=
      (generate_excerpt_spec longText 150).2.2 (by decide)
    exact hlen⟩

/-! ## C3 — publication timestamp -/

theorem blogPostInit_pub_fields (kw : PostAttrs)
    (existing : List (List Char)) (now : Nat) :
    (blogPostInit kw existing now).published = kw.published ∧
      (blogPostInit kw existing now).date_published =
        (if pyTruthyBool kw.published && kw.date_published.isNone then some now
         else kw.date_published) := by
  unfold blogPostInit
  constructor <;> (dsimp only; split_ifs <;> rfl)

set_option maxRecDepth 4000 in
/-- Counterexample to C3 as stated: a post created through `create_post`
(no `published` keyword) starts published — the flushed row carries the
column default `published = True` — yet its publication timestamp is never
set to the construction time 1000, because `__init__` ran while
`self.published` was still `None`. -/
theorem post_default_published_cex :
    (mkStored (blogPostInit routeKwargs [] 1000) 1 1000).published = true ∧
      (mkStored (blogPostInit routeKwargs [] 1000) 1 1000).date_published
        = none ∧
      (mkStored (blogPostInit routeKwargs [] 1000) 1 1000).date_published
        ≠ some 1000 := by
  decide

/-- C3 amended: the publication timestamp is set to the construction time
exactly when the `published` keyword is explicitly truthy at construction
and no timestamp is supplied; an explicit timestamp is preserved; when
`published` is absent or falsy at construction the timestamp stays unset —
flushing applies the column default `published = True` without touching
it; and no HTTP-layer operation replaces or edits a stored post, so the
timestamp is never reassigned later. -/
theorem post_date_published_once (kw : PostAttrs)
    (existing : List (List Char)) (now : Nat) :
    (pyTruthyBool kw.published = true → kw.date_published = none →
        (blogPostInit kw existing now).date_published = some now) ∧
      (∀ t, kw.date_published = some t →
        (blogPostInit kw existing now).date_published = some t) ∧
      (pyTruthyBool kw.published = false →
        (blogPostInit kw existing now).date_published = kw.date_published) ∧
      (∀ i n2, (mkStored (blogPostInit kw existing now) i n2).date_published
        = (blogPostInit kw existing now).date_published) ∧
      (∀ (s : Store) (op : AppOp) (n3 : Nat),
        s.posts <+: (applyOp n3 s op).posts) := by
  obtain ⟨-, hdp⟩ := blogPostInit_pub_fields kw existing now
  refine ⟨?_, ?_, ?_, ?_, ?_⟩
  · intro hp hd
    rw [hdp, hp, hd]
    simp
  · intro t ht
    rw [hdp, ht]
    simp
  · intro hp
    rw [hdp, hp]
    simp
  · intro i n2
    rfl
  · intro s op n3
    cases op with
    | createPost a t c e cid f =>
      unfold applyOp
      dsimp only
      split_ifs
      · exact ⟨_, rfl⟩
      · exact ⟨[], List.append_nil _⟩
    | addComment a p c =>
      unfold applyOp
      dsimp only
      split_ifs
      · exact ⟨[], List.append_nil _⟩
      · exact ⟨[], List.append_nil _⟩
      · exact ⟨[], List.append_nil _⟩

/-- Witness for the amended C3: an explicitly published construction at
time 5 stamps the timestamp. -/
theorem post_date_published_once_witness :
    (blogPostInit publishedKwargs [] 5).date_published = some 5 :=
  (post_date_published_once _ [] 5).1 (by decide) (by decide)

/-! ## C4 — comment threading invariant -/

/-- C4: every operation of the HTTP layer preserves the invariant that a
comment's parent reference, when present, names a comment on the same
post — in particular `api_add_comment`, the only comment-creating
operation, which never sets `parent_id`. -/
theorem comment_thread_invariant (s : Store) (now : Nat) (op : AppOp)
    (hwf : StoreWF s) (hinv : SameThread s) :
    SameThread (applyOp now s op) ∧ StoreWF (applyOp now s op) := by
  cases op with
  | createPost a t c e cid f =>
    unfold applyOp
    dsimp only
    split_ifs
    · exact ⟨hinv, hwf⟩
    · exact ⟨hinv, hwf⟩
  | addComment a pid c =>
    unfold applyOp
    dsimp only
    split_ifs with h1 h2
    · exact ⟨hinv, hwf⟩
    · exact ⟨hinv, hwf⟩
    · constructor
      · unfold SameThread
        intro cm hcm
        dsimp only at hcm ⊢
        rcases List.mem_append.mp hcm with hold | hnew
        · have hok := hinv cm hold
          have hwfc := hwf cm hold
          unfold parentOkB at hok ⊢
          cases hp : cm.parent_id with
          | none => rfl
          | some p =>
            rw [hp] at hok
            dsimp only at hok ⊢
            rw [List.all_append]
            unfold commentWfB at hwfc
            rw [hp] at hwfc
            dsimp only at hwfc
            simp only [Bool.and_eq_true, decide_eq_true_eq] at hwfc
            obtain ⟨-, hplt⟩ := hwfc
            have hne : s.nextCommentId ≠ p := by omega
            simp only [Bool.and_eq_true]
            refine ⟨hok, ?_⟩
            simp [hne]
        · rw [List.mem_singleton.mp hnew]
          rfl
      · unfold StoreWF
        intro cm hcm
        dsimp only at hcm ⊢
        rcases List.mem_append.mp hcm with hold | hnew
        · have hwfc := hwf cm hold
          unfold commentWfB at hwfc ⊢
          dsimp only at hwfc ⊢
          simp only [Bool.and_eq_true, decide_eq_true_eq] at hwfc ⊢
          obtain ⟨hid, hpar⟩ := hwfc
          refine ⟨by omega, ?_⟩
          cases hp : cm.parent_id with
          | none => rfl
          | some p =>
            rw [hp] at hpar
            dsimp only at hpar ⊢
            simp only [decide_eq_true_eq] at hpar ⊢
            omega
        · rw [List.mem_singleton.mp hnew]
          unfold commentWfB
          simp

/-- Witness for C4: adding a comment to the sample store preserves the
threading invariant. -/
theorem comment_thread_invariant_witness :
    SameThread (applyOp 7 sampleStore
        (AppOp.addComment 1 1 (("Great post!").toList))) ∧
      StoreWF (applyOp 7 sampleStore
        (AppOp.addComment 1 1 (("Great post!").toList))) :=
  comment_thread_invariant _ _ _ (by unfold StoreWF; decide)
    (by unfold SameThread; decide)

/-! ## C7 — free-text search filter -/

theorem likeMatchFuel_univ :
    ∀ (s : List Char) (fuel : Nat), s.length + 1 < fuel →
      likeMatchFuel fuel ['%'] s = true := by
  intro s
  induction s with
  | nil =>
    intro fuel hb
    cases fuel with
    | zero => omega
    | succ f =>
      cases f with
      | zero => omega
      | succ f2 => rfl
  | cons d cs ih =>
    intro fuel hb
    cases fuel with
    | zero => omega
    | succ f =>
      simp only [likeMatchFuel]
      rw [if_pos trivial]
      have := ih f (by simp at hb ⊢; omega)
      simp [this]

theorem likeMatchFuel_plain_pct :
    ∀ (pat : List Char) (s : List Char) (fuel : Nat),
      (∀ c ∈ pat, c ≠ '%' ∧ c ≠ '_') → pat.length + 1 + s.length < fuel →
      (likeMatchFuel fuel (pat ++ ['%']) s = true ↔
        ∃ s₁ s₂, s = s₁ ++ s₂ ∧
          s₁.map Char.toLower = pat.map Char.toLower) := by
  intro pat
  induction pat with
  | nil =>
    intro s fuel _ hb
    simp only [List.nil_append, List.map_nil]
    constructor
    · intro _
      exact ⟨[], s, rfl, rfl⟩
    · intro _
      exact likeMatchFuel_univ s fuel (by omega)
  | cons c pat ih =>
    intro s fuel hwild hb
    obtain ⟨hc1, hc2⟩ := hwild c (List.mem_cons_self c pat)
    have hwild2 : ∀ x ∈ pat, x ≠ '%' ∧ x ≠ '_' :=
      fun x hx => hwild x (List.mem_cons_of_mem c hx)
    cases fuel with
    | zero => omega
    | succ f =>
      simp only [List.cons_append, likeMatchFuel]
      rw [if_neg hc1, if_neg hc2]
      cases s with
      | nil =>
        dsimp only
        constructor
        · intro h; simp at h
        · rintro ⟨s₁, s₂, hnil, hmap⟩
          have hs1 : s₁ = [] := by
            cases s₁ with
            | nil => rfl
            | cons a b => simp at hnil
          rw [hs1] at hmap
          simp at hmap
      | cons d cs =>
        dsimp only
        rw [Bool.and_eq_true]
        have hb2 : pat.length + 1 + cs.length < f := by
          simp at hb; omega
        rw [ih cs f hwild2 hb2]
        constructor
        · rintro ⟨hcd, u, v, rfl, hu⟩
          refine ⟨d :: u, v, rfl, ?_⟩
          simp only [List.map_cons, hu]
          rw [(beq_iff_eq.mp hcd)]
        · rintro ⟨s₁, s₂, heq, hmap⟩
          cases s₁ with
          | nil => simp at hmap
          | cons e u =>
            rw [List.cons_append] at heq
            injection heq with h1 h2
            simp only [List.map_cons] at hmap
            injection hmap with hm1 hm2
            have hce : c.toLower = d.toLower := by rw [h1, ← hm1]
            exact ⟨beq_iff_eq.mpr hce, u, s₂, h2, hm2⟩

theorem likeMatchFuel_master :
    ∀ (s : List Char) (fuel : Nat) (term : List Char),
      (∀ c ∈ term, c ≠ '%' ∧ c ≠ '_') →
      term.length + 2 + s.length < fuel →
      (likeMatchFuel fuel ('%' :: (term ++ ['%'])) s = true ↔
        ∃ s₁ s₂, s = s₁ ++ s₂ ∧
          ∃ u v, s₂ = u ++ v ∧
            u.map Char.toLower = term.map Char.toLower) := by
  intro s
  induction s with
  | nil =>
    intro fuel term hwild hb
    cases fuel with
    | zero => omega
    | succ f =>
      simp only [likeMatchFuel]
      rw [if_pos trivial]
      rw [Bool.or_false]
      rw [likeMatchFuel_plain_pct term [] f hwild (by simp at hb ⊢; omega)]
      constructor
      · rintro ⟨u, v, huv, hu⟩
        exact ⟨[], [], rfl, u, v, huv, hu⟩
      · rintro ⟨s₁, s₂, h12, u, v, huv, hu⟩
        obtain ⟨e1, e2⟩ := List.append_eq_nil.mp h12.symm
        exact ⟨u, v, by rw [e2] at huv; exact huv, hu⟩
  | cons d cs ihs =>
    intro fuel term hwild hb
    cases fuel with
    | zero => omega
    | succ f =>
      simp only [likeMatchFuel]
      rw [if_pos trivial]
      rw [Bool.or_eq_true]
      rw [likeMatchFuel_plain_pct term (d :: cs) f hwild
        (by simp at hb ⊢; omega)]
      rw [ihs f term hwild (by simp at hb ⊢; omega)]
      constructor
      · rintro (⟨u, v, huv, hu⟩ | ⟨s₁, s₂, h12, u, v, huv, hu⟩)
        · exact ⟨[], d :: cs, rfl, u, v, huv, hu⟩
        · exact ⟨d :: s₁, s₂, by rw [List.cons_append, ← h12], u, v, huv, hu⟩
      · rintro ⟨s₁, s₂, h12, u, v, huv, hu⟩
        cases s₁ with
        | nil =>
          left
          rw [List.nil_append] at h12
          exact ⟨u, v, by rw [h12]; exact huv, hu⟩
        | cons e s₁' =>
          right
          rw [List.cons_append] at h12
          injection h12 with h1 h2
          exact ⟨s₁', s₂, h2, u, v, huv, hu⟩

theorem likeContains_iff (term s : List Char)
    (hwild : ∀ c ∈ term, c ≠ '%' ∧ c ≠ '_') :
    likeContains term s = true ↔ ciSubstring term s := by
  unfold likeContains likeM ciSubstring
  rw [List.cons_append]
  rw [likeMatchFuel_master s _ term hwild (by simp)]
  constructor
  · rintro ⟨s₁, s₂, rfl, u, v, rfl, hu⟩
    refine ⟨s₁.map Char.toLower, v.map Char.toLower, ?_⟩
    simp only [List.map_append]
    rw [hu, List.append_assoc]
  · rintro ⟨a, b, hab⟩
    obtain ⟨f₁, f₂, rfl, hf1, hf2⟩ :=
      map_eq_append_split Char.toLower (a ++ term.map Char.toLower) s b
        hab.symm
    obtain ⟨g₁, g₂, rfl, hg1, hg2⟩ :=
      map_eq_append_split Char.toLower a f₁ (term.map Char.toLower) hf1
    exact ⟨g₁, g₂ ++ f₂, List.append_assoc g₁ g₂ f₂, g₂, f₂, rfl, hg2⟩

theorem tripleLike_iff (term : List Char) (p : StoredPost)
    (hwild : ∀ c ∈ term, c ≠ '%' ∧ c ≠ '_') :
    tripleLike term p = true ↔ searchClaimMatch term p := by
  unfold tripleLike searchClaimMatch
  rw [Bool.or_eq_true, Bool.or_eq_true]
  rw [likeContains_iff _ _ hwild, likeContains_iff _ _ hwild]
  cases hex : p.excerpt with
  | none =>
    dsimp only
    simp
  | some e =>
    dsimp only
    rw [likeContains_iff _ _ hwild]
    tauto

/-- Counterexample to C7 as stated: `column.contains` compiles to SQL
`LIKE '%term%'` without escaping, so `_` in the term matches any one
character: the term `"x_z"` selects the post titled `"xyz"` although it is
not a substring of any of the three fields. -/
theorem search_filter_cex :
    searchCexPost ∈ searchFilter [searchCexPost] (("x_z").toList) ∧
      ¬ searchClaimMatch (("x_z").toList) searchCexPost := by
  constructor
  · decide
  · unfold searchClaimMatch ciSubstring searchCexPost
    decide

/-- C7 amended: for every non-empty term free of the SQL `LIKE` wildcards
`'%'` and `'_'`, the search filter selects a stored Post iff the term is a
case-insensitive (ASCII fold, the SQLite `LIKE` semantics) substring of
its title OR its content OR its non-`NULL` excerpt. -/
theorem search_filter_amended (posts : List StoredPost) (term : List Char)
    (p : StoredPost) (hne : term ≠ [])
    (hwild : ∀ c ∈ term, c ≠ '%' ∧ c ≠ '_') :
    p ∈ searchFilter posts term ↔ p ∈ posts ∧ searchClaimMatch term p := by
  unfold searchFilter
  have hcond : ¬ term.isEmpty = true := by
    cases term with
    | nil => exact absurd rfl hne
    | cons a b => simp
  rw [if_neg hcond, List.mem_filter, tripleLike_iff _ _ hwild]

/-- Witness for the amended C7: the wildcard-free term `"tab"` against a
one-post store. -/
theorem search_filter_amended_witness :
    samplePost ∈ searchFilter [samplePost] (("tab").toList) ↔
      samplePost ∈ [samplePost] ∧
        searchClaimMatch (("tab").toList) samplePost :=
  search_filter_amended _ _ _ (by decide) (by decide)

end ModernApp
